import Mathlib

/-!
Shallow embedding of `src/main.py`, a single-instrument limit order book:
data types `Side`, `Order`, `Trade`, the per-price FIFO queue `OrderLevel`,
and the book `OrderBook` with its matching entry point `process`.

Modelling conventions:
* Python ints are `Int`.
* The deque of an `OrderLevel` is a list, head of the list = head of the deque.
* The dicts `bids` / `asks` are association lists from price to level.  All uses in
  the source are order-insensitive on keys (`sorted`, `max`, `min`, membership), so
  the association-list representation is faithful.
* `calc_max_bid` / `calc_min_ask` return `float('-inf')` / `float('inf')` for an
  empty side; the floats appear only as sentinels compared against integer prices,
  so they are modelled as `Option Int` with `none` for the infinite sentinel and
  the comparisons wrapped in `crossesBid` / `crossesAsk`.
* In-place mutation of orders, deques and dicts becomes explicit state passing.
* `process` falls through its `Side.BUY` crossing branch without a `return`
  statement (Python then returns `None`); the result type is therefore
  `Option (List Trade)`, with `none` for that `None`.
-/

namespace OrderBookModel

/-- `Side` from `main.py` (`BUY = -1`, `SELL = 1`; the numeric enum values are never
used by the matching logic, only the tags). -/
inductive Side where
  | BUY
  | SELL
deriving DecidableEq

/-- `Order` (pydantic model): `id`, `side`, `quantity`, `price`, all ints.  Pydantic
validates the field types only; the source imposes no positivity constraint on
`quantity` or `price`. -/
structure Order where
  id : Int
  side : Side
  quantity : Int
  price : Int
deriving DecidableEq

/-- `Trade` (pydantic model): `buyer`, `seller`, `price`, `quantity`. -/
structure Trade where
  buyer : Int
  seller : Int
  price : Int
  quantity : Int
deriving DecidableEq

/-- The deque `OrderLevel.orders`, oldest order at the head. -/
abbrev OrderLevel := List Order

/-- The in-place mutation `order.quantity -= ...` modelled functionally. -/
def Order.withQuantity (o : Order) (q : Int) : Order :=
  ⟨o.id, o.side, q, o.price⟩

/-- `OrderLevel.execute_sell(seller, at_price, total_quantity)` from `main.py`,
returning `(trades, total_quantity, orders)`: the emitted trades, the value of
`total_quantity` on return, and the deque after mutation.

Faithful to the source, including its quirks:
* the source line `total_quantity == 0` in the first branch is a comparison whose
  result is discarded (not an assignment), so the first branch returns the incoming
  quantity unchanged;
* the loop condition is only `while self.orders`, so when the incoming quantity
  reaches `0` exactly and orders remain, the next iteration still runs and emits a
  trade of quantity `0` through the first branch. -/
def OrderLevel.execute_sell : OrderLevel → Int → Int → Int → List Trade × Int × OrderLevel
  | [], _, _, total_quantity => ([], total_quantity, [])
  | o :: rest, seller, at_price, total_quantity =>
    if total_quantity < o.quantity then
      ([⟨o.id, seller, at_price, total_quantity⟩], total_quantity,
        o.withQuantity (o.quantity - total_quantity) :: rest)
    else
      let r := OrderLevel.execute_sell rest seller at_price (total_quantity - o.quantity)
      (⟨o.id, seller, at_price, o.quantity⟩ :: r.1, r.2.1, r.2.2)

/-- `OrderLevel.depth()`: total resting quantity of the level. -/
def OrderLevel.depth (l : OrderLevel) : Int :=
  (l.map Order.quantity).sum

/-- The dicts `self.bids` / `self.asks`: price, level pairs. -/
abbrev PriceMap := List (Int × OrderLevel)

/-- The key view of a price dict. -/
def PriceMap.keys (m : PriceMap) : List Int :=
  m.map Prod.fst

/-- Dict read `m[p]`; a missing key yields the fresh empty level a `defaultdict`
would create. -/
def PriceMap.get (m : PriceMap) (p : Int) : OrderLevel :=
  match m.find? (fun kv => kv.1 == p) with
  | some kv => kv.2
  | none => []

/-- Dict write: replace the level at `p`, or append the binding if `p` is new. -/
def PriceMap.set (m : PriceMap) (p : Int) (l : OrderLevel) : PriceMap :=
  if m.any (fun kv => kv.1 == p) then
    m.map (fun kv => if kv.1 == p then (p, l) else kv)
  else
    m ++ [(p, l)]

/-- `del m[p]`. -/
def PriceMap.erase (m : PriceMap) (p : Int) : PriceMap :=
  m.filter (fun kv => kv.1 != p)

/-- `m[price].add(order)`: append the order at the tail of the level at `p`
(creating the level when absent, as `defaultdict` does). -/
def PriceMap.addOrder (m : PriceMap) (p : Int) (o : Order) : PriceMap :=
  PriceMap.set m p (PriceMap.get m p ++ [o])

/-- `OrderBook`: the two sides. -/
structure OrderBook where
  bids : PriceMap
  asks : PriceMap
deriving DecidableEq

/-- The empty book built by `OrderBook.__init__`. -/
def emptyBook : OrderBook := ⟨[], []⟩

/-- `calc_max_bid`: `max(bids.keys())`, with `none` for the `float('-inf')` sentinel
of an empty bid side. -/
def OrderBook.calc_max_bid (b : OrderBook) : Option Int :=
  (PriceMap.keys b.bids).max?

/-- `calc_min_ask`: `min(asks.keys())`, with `none` for the `float('inf')` sentinel
of an empty ask side. -/
def OrderBook.calc_min_ask (b : OrderBook) : Option Int :=
  (PriceMap.keys b.asks).min?

/-- The guard `price >= min_ask` of `process`; `none` is `float('inf')`, which no
integer price reaches. -/
def crossesAsk (price : Int) (min_ask : Option Int) : Bool :=
  match min_ask with
  | none => false
  | some a => a ≤ price

/-- The guard `price <= max_bid` of `process`; `none` is `float('-inf')`, which no
integer price reaches. -/
def crossesBid (price : Int) (max_bid : Option Int) : Bool :=
  match max_bid with
  | none => false
  | some m => price ≤ m

/-- Insert into a descending-sorted list, keeping it descending. -/
def insertDesc (x : Int) : List Int → List Int
  | [] => [x]
  | y :: ys => if y ≤ x then x :: y :: ys else y :: insertDesc x ys

/-- Descending sort; on the duplicate-free key lists of a dict it agrees with the
source's `sorted(..., reverse=True)`. -/
def sortDesc : List Int → List Int
  | [] => []
  | x :: xs => insertDesc x (sortDesc xs)

/-- The level list `sorted([price for price in bids if price >= order.price],
reverse=True)` computed by `OrderBook.execute_sell`. -/
def sellLevels (bids : PriceMap) (price : Int) : List Int :=
  sortDesc ((PriceMap.keys bids).filter (fun p => decide (price ≤ p)))

/-- The `for price in levels` loop of `OrderBook.execute_sell`: consume each level,
append its trades, delete the level if it emptied, stop once `total_quantity == 0`.
Returns `(executed_trades, total_quantity, bids)`. -/
def execLoop (seller : Int) (bids : PriceMap) (levels : List Int) (total_quantity : Int)
    (acc : List Trade) : List Trade × Int × PriceMap :=
  match levels with
  | [] => (acc, total_quantity, bids)
  | price :: rest =>
    let r := OrderLevel.execute_sell (PriceMap.get bids price) seller price total_quantity
    let bids2 := if r.2.2.isEmpty then PriceMap.erase bids price else PriceMap.set bids price r.2.2
    if r.2.1 = 0 then (acc ++ r.1, r.2.1, bids2)
    else execLoop seller bids2 rest r.2.1 (acc ++ r.1)

/-- `OrderBook.execute_sell(order)`, returning `(trades, quantity_remaining, book)`. -/
def OrderBook.execute_sell (b : OrderBook) (order : Order) : List Trade × Int × OrderBook :=
  let r := execLoop order.id b.bids (sellLevels b.bids order.price) order.quantity []
  (r.1, r.2.1, ⟨r.2.2, b.asks⟩)

/-- `OrderBook.process(order)`, returning the Python result (`none` models the
`None` that the fall-through `Side.BUY` crossing branch returns) and the book after
the call.  Faithful to the source: the crossing BUY branch only prints; the crossing
SELL branch rests the incoming order (with `order.quantity = quantity_left`) exactly
when `quantity_left == 0`. -/
def OrderBook.process (b : OrderBook) (order : Order) : Option (List Trade) × OrderBook :=
  match order.side with
  | Side.BUY =>
    if crossesAsk order.price b.calc_min_ask then
      (none, b)
    else
      (some [], ⟨PriceMap.addOrder b.bids order.price order, b.asks⟩)
  | Side.SELL =>
    if crossesBid order.price b.calc_max_bid then
      let r := b.execute_sell order
      if r.2.1 = 0 then
        let rested := order.withQuantity r.2.1
        (some r.1, ⟨r.2.2.bids, PriceMap.addOrder r.2.2.asks rested.price rested⟩)
      else
        (some r.1, r.2.2)
    else
      (some [], ⟨b.bids, PriceMap.addOrder b.asks order.price order⟩)

/-- Run a sequence of `process` calls, keeping only the book (as the demo driver
does). -/
def processAll (b : OrderBook) : List Order → OrderBook
  | [] => b
  | o :: os => processAll (b.process o).2 os

/-- The no-cross invariant of the spec: every resting bid price is strictly below
every resting ask price. -/
def noCross (b : OrderBook) : Prop :=
  ∀ bp ∈ PriceMap.keys b.bids, ∀ ap ∈ PriceMap.keys b.asks, bp < ap

instance (b : OrderBook) : Decidable (noCross b) := by
  unfold noCross; infer_instance

/-- The six resting-bid orders of the reference driver (ids 1–6). -/
def demoBids : List Order :=
  [⟨1, Side.BUY, 1, 100⟩, ⟨2, Side.BUY, 2, 100⟩, ⟨3, Side.BUY, 1, 99⟩,
   ⟨4, Side.BUY, 2, 99⟩, ⟨5, Side.BUY, 3, 99⟩, ⟨6, Side.BUY, 3, 98⟩]

/-- The book of the reference scenario: bids 100:[1@1, 2@2], 99:[3@1, 4@2, 5@3],
98:[6@3], built by processing the driver's six buy orders from the empty book. -/
def demoBook : OrderBook := processAll emptyBook demoBids

/-- The fire-sale order of the reference driver: sell id 9, price 99, quantity 5. -/
def sell9 : Order := ⟨9, Side.SELL, 5, 99⟩

/-- A book with a single resting ask, 3@101 (the driver's order id 7). -/
def ask7Book : OrderBook := processAll emptyBook [⟨7, Side.SELL, 3, 101⟩]

/-- A valid order sequence (all prices and quantities positive): two resting bids at
100, then a crossing sell at 99 for quantity 1. -/
def crossSeq : List Order :=
  [⟨1, Side.BUY, 1, 100⟩, ⟨2, Side.BUY, 2, 100⟩, ⟨3, Side.SELL, 1, 99⟩]

/-- A book with resting bids 5@100 (id 1) and 5@99 (id 2). -/
def book55 : OrderBook :=
  processAll emptyBook [⟨1, Side.BUY, 5, 100⟩, ⟨2, Side.BUY, 5, 99⟩]

/-- Incoming sell id 3, price 99, quantity 3, crossing both levels of `book55`. -/
def sellC2 : Order := ⟨3, Side.SELL, 3, 99⟩

/-- A book with one resting bid 2@100 (id 1). -/
def bidBook2 : OrderBook := processAll emptyBook [⟨1, Side.BUY, 2, 100⟩]

/-- A book with one resting bid 5@100 (id 1). -/
def bidBook5 : OrderBook := processAll emptyBook [⟨1, Side.BUY, 5, 100⟩]

/-- A book with two resting bids at the same level 100: 1@100 (id 1, older) and
2@100 (id 2, newer). -/
def fifoBook : OrderBook :=
  processAll emptyBook [⟨1, Side.BUY, 1, 100⟩, ⟨2, Side.BUY, 2, 100⟩]

theorem insertDesc_perm (x : Int) (l : List Int) : List.Perm (insertDesc x l) (x :: l) := by
  induction l with
  | nil => exact List.Perm.refl _
  | cons a as ih =>
    simp only [insertDesc]
    split
    · exact List.Perm.refl _
    · exact (List.Perm.cons a ih).trans (List.Perm.swap x a as)

theorem sortDesc_perm (l : List Int) : List.Perm (sortDesc l) l := by
  induction l with
  | nil => exact List.Perm.refl _
  | cons x xs ih =>
    exact (insertDesc_perm x (sortDesc xs)).trans (List.Perm.cons x ih)

theorem sorted_insertDesc (x : Int) (l : List Int)
    (h : List.Sorted (· ≥ ·) l) : List.Sorted (· ≥ ·) (insertDesc x l) := by
  induction l with
  | nil => simp [insertDesc]
  | cons a as ih =>
    simp only [insertDesc]
    split
    · rename_i hax
      rw [List.sorted_cons]
      refine ⟨?_, h⟩
      intro b hb
      rcases List.mem_cons.mp hb with hb | hb
      · exact hb ▸ hax
      · exact le_trans (List.rel_of_sorted_cons h b hb) hax
    · rename_i hax
      rw [List.sorted_cons]
      refine ⟨?_, ih h.of_cons⟩
      intro b hb
      rcases List.mem_cons.mp ((insertDesc_perm x as).mem_iff.mp hb) with hb | hb
      · exact hb ▸ le_of_lt (lt_of_not_ge fun hya => hax hya)
      · exact List.rel_of_sorted_cons h b hb

theorem sorted_sortDesc (l : List Int) : List.Sorted (· ≥ ·) (sortDesc l) := by
  induction l with
  | nil => simp [sortDesc]
  | cons x xs ih => exact sorted_insertDesc x (sortDesc xs) ih

theorem sorted_gt_of_ge_nodup (l : List Int) (hs : List.Sorted (· ≥ ·) l)
    (hn : l.Nodup) : List.Sorted (· > ·) l := by
  induction l with
  | nil => simp
  | cons a as ih =>
    rw [List.sorted_cons] at hs ⊢
    rcases hs with ⟨ha, hs⟩
    rcases List.nodup_cons.mp hn with ⟨hna, hn⟩
    refine ⟨?_, ih hs hn⟩
    intro b hb
    exact lt_of_le_of_ne (ha b hb) fun hba => hna (hba ▸ hb)

theorem mem_sellLevels (bids : PriceMap) (price p : Int) :
    p ∈ sellLevels bids price ↔ p ∈ PriceMap.keys bids ∧ price ≤ p := by
  unfold sellLevels
  rw [(sortDesc_perm _).mem_iff, List.mem_filter]
  simp

theorem sellLevels_sorted_gt (bids : PriceMap) (price : Int)
    (hnd : (PriceMap.keys bids).Nodup) :
    List.Sorted (· > ·) (sellLevels bids price) :=
  sorted_gt_of_ge_nodup _ (sorted_sortDesc _)
    ((sortDesc_perm _).nodup_iff.mpr (List.Nodup.filter _ hnd))

theorem level_trade_price (l : OrderLevel) (s p q : Int) :
    ∀ t ∈ (OrderLevel.execute_sell l s p q).1, t.price = p := by
  induction l generalizing q with
  | nil => intro t ht; simp [OrderLevel.execute_sell] at ht
  | cons o rest ih =>
    intro t ht
    simp only [OrderLevel.execute_sell] at ht
    split at ht
    · simp at ht
      exact ht ▸ rfl
    · rcases List.mem_cons.mp ht with h | h
      · exact h ▸ rfl
      · exact ih (q - o.quantity) t h

theorem level_fifo (l : OrderLevel) (s p : Int) :
    ∀ q : Int, ∃ k, ((OrderLevel.execute_sell l s p q).1).map Trade.buyer
      = (l.map Order.id).take k := by
  induction l with
  | nil => exact fun q => ⟨0, by simp [OrderLevel.execute_sell]⟩
  | cons o rest ih =>
    intro q
    by_cases hq : q < o.quantity
    · exact ⟨1, by simp [OrderLevel.execute_sell, hq]⟩
    · obtain ⟨k, hk⟩ := ih (q - o.quantity)
      exact ⟨k + 1, by simp [OrderLevel.execute_sell, hq, hk]⟩

theorem execLoop_prices_sorted (seller : Int) (levels : List Int) :
    ∀ (bids : PriceMap) (tq : Int) (acc : List Trade),
    List.Sorted (· ≥ ·) levels →
    List.Sorted (· ≥ ·) (acc.map Trade.price) →
    (∀ t ∈ acc, ∀ p ∈ levels, p ≤ t.price) →
    List.Sorted (· ≥ ·) (((execLoop seller bids levels tq acc).1).map Trade.price) := by
  induction levels with
  | nil =>
    intro bids tq acc _ hacc _
    simpa [execLoop] using hacc
  | cons price rest ih =>
    intro bids tq acc hlev hacc hcross
    have hlt := level_trade_price (PriceMap.get bids price) seller price tq
    have hsorted2 : List.Sorted (· ≥ ·)
        ((acc ++ (OrderLevel.execute_sell (PriceMap.get bids price) seller price tq).1).map
          Trade.price) := by
      rw [List.map_append, List.Sorted, List.pairwise_append]
      refine ⟨hacc, ?_, ?_⟩
      · apply List.pairwise_of_forall_mem_list
        intro a ha b hb
        rcases List.mem_map.mp ha with ⟨ta, hta, rfl⟩
        rcases List.mem_map.mp hb with ⟨tb, htb, rfl⟩
        rw [hlt ta hta, hlt tb htb]
      · intro a ha b hb
        rcases List.mem_map.mp ha with ⟨ta, hta, rfl⟩
        rcases List.mem_map.mp hb with ⟨tb, htb, rfl⟩
        rw [hlt tb htb]
        exact hcross ta hta price (List.mem_cons_self _ _)
    simp only [execLoop]
    split
    · exact hsorted2
    · apply ih _ _ _ hlev.of_cons hsorted2
      intro t ht p hp
      rcases List.mem_append.mp ht with ht | ht
      · exact hcross t ht p (List.mem_cons_of_mem _ hp)
      · rw [hlt t ht]
        exact List.rel_of_sorted_cons hlev p hp

/-- C1, refuted on the code: processing the valid sequence `crossSeq`
(BUY 1@100 id 1, BUY 2@100 id 2, SELL 1@99 id 3) from the empty book leaves a
resting bid level at 100 and a resting ask level at 99 (the order id 3 is re-rested
with quantity 0 after filling exactly), so the maximum bid price 100 is not strictly
below the minimum ask price 99: the no-cross invariant fails after a `process`
call. -/
theorem C1_no_cross_invariant_fails :
    (processAll emptyBook crossSeq).calc_max_bid = some 100
    ∧ (processAll emptyBook crossSeq).calc_min_ask = some 99
    ∧ ¬ noCross (processAll emptyBook crossSeq) := by
  decide

/-- C2, refuted on the code: the incoming sell id 3 of quantity 3 against `book55`
generates trades summing to quantity 6 (the partial fill at level 100 does not
reduce the running quantity, because `total_quantity == 0` in the source is a
comparison, so level 99 is consumed again with the stale quantity), and nothing of
the order is rested: 3 is not 6 + 0. -/
theorem C2_quantity_conservation_fails :
    sellC2.quantity = 3
    ∧ (book55.process sellC2).1 = some [⟨1, 3, 100, 3⟩, ⟨2, 3, 99, 3⟩]
    ∧ ((((book55.process sellC2).1).getD []).map Trade.quantity).sum = 6
    ∧ (book55.process sellC2).2.asks = [] := by
  decide

/-- C3, refuted on the code: consuming quantity 3 from a level whose head order has
quantity 5 emits the single trade of quantity 3 and leaves the head decremented at
the front, but the returned remaining incoming quantity is 3, not 0 — the source
line `total_quantity == 0` compares instead of assigning. -/
theorem C3_partial_fill_remainder_not_zero :
    OrderLevel.execute_sell [⟨1, Side.BUY, 5, 100⟩] 2 100 3
      = ([⟨1, 2, 100, 3⟩], 3, [⟨1, Side.BUY, 2, 100⟩]) := by
  decide

/-- C4, refuted on the code, in both directions: a sell of 5 against the single bid
2@100 leaves remainder 3 yet rests nothing on the ask side, while a sell of 5
against the bid 5@100 fills completely yet rests a quantity-0 ask at 100 — the
source rests exactly when `quantity_left == 0`, the opposite of the claim. -/
theorem C4_resting_rule_inverted :
    ((bidBook2.process ⟨2, Side.SELL, 5, 100⟩).1 = some [⟨1, 2, 100, 2⟩]
      ∧ (bidBook2.process ⟨2, Side.SELL, 5, 100⟩).2.asks = [])
    ∧ (bidBook5.process ⟨2, Side.SELL, 5, 100⟩).2.asks
        = [(100, [⟨2, Side.SELL, 0, 100⟩])] := by
  decide

/-- C5, refuted on the code: with only positive-quantity, positive-price orders
(`fifoBook` plus the incoming sell 1@100 id 3), `process` returns a trade of
quantity 0 against order id 2 — after the incoming quantity reaches 0 exactly, the
level loop keeps running while orders remain and emits a zero-quantity trade. -/
theorem C5_zero_quantity_trade_emitted :
    (fifoBook.process ⟨3, Side.SELL, 1, 100⟩).1 = some [⟨1, 3, 100, 1⟩, ⟨2, 3, 100, 0⟩]
    ∧ ¬ (∀ t ∈ ((fifoBook.process ⟨3, Side.SELL, 1, 100⟩).1).getD [], 0 < t.quantity) := by
  decide

/-- C6, refuted on the code: an incoming BUY at 105 against the resting ask 3@101
crosses, but the BUY crossing branch of `process` only prints and falls through,
returning Python `None` (not a trade sequence) and leaving the ask side untouched —
no buy-side execution exists in the source. -/
theorem C6_buy_execution_missing :
    (ask7Book.process ⟨10, Side.BUY, 4, 105⟩).1 = none
    ∧ (ask7Book.process ⟨10, Side.BUY, 4, 105⟩).2 = ask7Book := by
  decide

/-- C7: for any book and incoming sell order, the candidate levels `sellLevels` are
exactly the bid prices at or above the order's limit, visited in strictly
descending order (given duplicate-free keys, as a dict guarantees); the trade
prices produced by `OrderBook.execute_sell` are descending accordingly; and within
one level `OrderLevel.execute_sell` consumes oldest-first: the buyers of its trades
are an initial segment of the queue's order ids. -/
theorem C7_price_time_priority (b : OrderBook) (o : Order)
    (hnd : (PriceMap.keys b.bids).Nodup) :
    List.Sorted (· > ·) (sellLevels b.bids o.price)
    ∧ (∀ p : Int, p ∈ sellLevels b.bids o.price ↔ p ∈ PriceMap.keys b.bids ∧ o.price ≤ p)
    ∧ List.Sorted (· ≥ ·) (((b.execute_sell o).1).map Trade.price)
    ∧ (∀ (l : OrderLevel) (s tp tq : Int), ∃ k,
        ((OrderLevel.execute_sell l s tp tq).1).map Trade.buyer = (l.map Order.id).take k) := by
  refine ⟨sellLevels_sorted_gt b.bids o.price hnd,
    fun p => mem_sellLevels b.bids o.price p, ?_, fun l s tp tq => level_fifo l s tp tq⟩
  have h : (b.execute_sell o).1
      = (execLoop o.id b.bids (sellLevels b.bids o.price) o.quantity []).1 := rfl
  rw [h]
  refine execLoop_prices_sorted o.id (sellLevels b.bids o.price) b.bids o.quantity []
    ?_ (by simp) (by simp)
  exact sorted_sortDesc _

/-- Witness for C7 at the reference book and the fire-sale order. -/
theorem C7_price_time_priority_witness :
    (PriceMap.keys demoBook.bids).Nodup
    ∧ (List.Sorted (· > ·) (sellLevels demoBook.bids sell9.price)
      ∧ (∀ p : Int, p ∈ sellLevels demoBook.bids sell9.price
          ↔ p ∈ PriceMap.keys demoBook.bids ∧ sell9.price ≤ p)
      ∧ List.Sorted (· ≥ ·) (((demoBook.execute_sell sell9).1).map Trade.price)
      ∧ (∀ (l : OrderLevel) (s tp tq : Int), ∃ k,
          ((OrderLevel.execute_sell l s tp tq).1).map Trade.buyer = (l.map Order.id).take k)) :=
  ⟨by decide, C7_price_time_priority demoBook sell9 (by decide)⟩

/-- C8, refuted on the code: from the reference book
(bids 100:[1@1, 2@2], 99:[3@1, 4@2, 5@3], 98:[6@3]), the fire sale id 9, price 99,
quantity 5 produces four trades, not three: the partial fill against id 3's level
returns the running quantity un-zeroed, so an extra trade of quantity 1 against
id 4 at 99 is emitted. -/
theorem C8_reference_scenario_extra_trade :
    (demoBook.process sell9).1
      = some [⟨1, 9, 100, 1⟩, ⟨2, 9, 100, 2⟩, ⟨3, 9, 99, 1⟩, ⟨4, 9, 99, 1⟩]
    ∧ (((demoBook.process sell9).1).getD []).length = 4 := by
  decide

/-- C9, refuted on the code: `process` performs no input validation — the order
id 1, SELL, quantity -1, price 0 is accepted without error and rested on the ask
side, mutating the book. -/
theorem C9_no_input_validation :
    (emptyBook.process ⟨1, Side.SELL, -1, 0⟩).1 = some []
    ∧ (emptyBook.process ⟨1, Side.SELL, -1, 0⟩).2
        = ⟨[], [(0, [⟨1, Side.SELL, -1, 0⟩])]⟩ := by
  decide

/-- C10: an incoming BUY priced at or above the minimum ask takes the crossing
branch of `process`, which only prints and falls through — the book is returned
completely unchanged (nothing is consumed, modified, added or rested). -/
theorem C10_buy_cross_leaves_book_unchanged (b : OrderBook) (o : Order) (a : Int)
    (hside : o.side = Side.BUY) (hask : b.calc_min_ask = some a) (hle : a ≤ o.price) :
    (b.process o).2 = b := by
  have hc : crossesAsk o.price b.calc_min_ask = true := by
    rw [hask]
    simpa [crossesAsk] using hle
  simp [OrderBook.process, hside, hc]

/-- Witness for C10: a buy at 105 crossing the resting ask 3@101. -/
theorem C10_buy_cross_leaves_book_unchanged_witness :
    (⟨12, Side.BUY, 2, 105⟩ : Order).side = Side.BUY
    ∧ ask7Book.calc_min_ask = some 101
    ∧ (101 : Int) ≤ (⟨12, Side.BUY, 2, 105⟩ : Order).price
    ∧ (ask7Book.process ⟨12, Side.BUY, 2, 105⟩).2 = ask7Book :=
  ⟨rfl, by decide, by decide,
    C10_buy_cross_leaves_book_unchanged ask7Book ⟨12, Side.BUY, 2, 105⟩ 101 rfl
      (by decide) (by decide)⟩

end OrderBookModel
